import Mathlib

/-!
Raven demand optimisation: the data structures of `DemandOptimization.h`.

A shallow embedding of the structures declared in `src/src/DemandOptimization.h`
(`decision_var`, `exp_condition`, `op_regime`, `manConstraint`, and the
expression structures they point to), together with the properties of their
constructors and accessors.

Conventions of the embedding:
* a C++ `double` is an exact rational (`ℚ`); every value that appears below is
  a literal or a product/sum of literals, so no rounding is involved;
* a C++ `int`/`long` is an `Int`;
* a pointer is an `Option` (`NULL` is `none`); a pointer to an array is an
  `Option (List _)`, and reading index `i` of it is out of range when the
  pointer is `NULL`, when `i < 0`, or when `i` is past the end of the array;
* constants of `RavenInclude.h`, which is not part of the sources at hand,
  are the fields of the structure `RavenInclude`.
-/

namespace Raven

/-! ## Constants and enumerations -/

/-- Constants that `DemandOptimization.h` takes from `RavenInclude.h`.
`ALMOST_INF` is the sentinel used for an unbounded `double`, and
`DOESNT_EXIST` the sentinel used for an index that refers to nothing. -/
structure RavenInclude where
  ALMOST_INF : ℚ
  DOESNT_EXIST : Int
  deriving DecidableEq, Repr

/-- Modelled from the spec: the enumeration `comparison` of `RavenInclude.h`,
which is not part of the sources at hand. The spec lists the comparison
operators as equal/less/greater/between; the header names `COMPARE_IS_EQUAL`
and `COMPARE_BETWEEN`. -/
inductive comparison where
  | COMPARE_IS_EQUAL
  | COMPARE_LESSTHAN
  | COMPARE_GREATERTHAN
  | COMPARE_BETWEEN
  deriving DecidableEq, Repr

/-- The enumeration `exptype`. -/
inductive exptype where
  | EXP
  | EXP_OP
  | EXP_INV
  deriving DecidableEq, Repr

/-- The enumeration `termtype`. -/
inductive termtype where
  | TERM_DV
  | TERM_TS
  | TERM_LT
  | TERM_HRU
  | TERM_SB
  | TERM_CONST
  | TERM_HISTORY
  | TERM_MAX
  | TERM_MIN
  | TERM_CONVERT
  | TERM_CUMUL_TS
  | TERM_CUMUL
  | TERM_UNKNOWN
  deriving DecidableEq, Repr

/-- The enumeration `dv_type`. -/
inductive dv_type where
  | DV_QOUT
  | DV_QOUTRES
  | DV_STAGE
  | DV_DELIVERY
  | DV_SLACK
  | DV_USER
  deriving DecidableEq, Repr

/-! ## Pointers to arrays -/

/-- Read index `i` of the array behind pointer `a`: `none` when the access is
out of range (null pointer, negative index, or index past the end). -/
def arrayAt {α : Type} (a : Option (List α)) (i : Int) : Option α :=
  match a with
  | none => none
  | some xs => if i < 0 then none else xs.get? i.toNat

/-- The first `n` entries of the array behind pointer `a`, i.e. the entries a
loop `for (k=0; k<n; k++)` visits; empty when the pointer is `NULL`. -/
def arrayPrefix {α : Type} (a : Option (List α)) (n : Int) : List α :=
  (a.getD []).take n.toNat

/-! ## Expressions -/

/-- The struct `expressionTerm`. The pointers `pTS` and `pLT` refer to objects
owned by the surrounding model and are kept as the referenced object's name. -/
structure expressionTerm where
  type : termtype
  mult : ℚ
  reciprocal : Bool
  value : ℚ
  pTS : Option String
  pLT : Option String
  is_nested : Bool
  timeshift : Int
  DV_ind : Int
  nested_ind1 : Int
  nested_ind2 : Int
  nested_exp1 : String
  nested_exp2 : String
  origexp : String
  p_index : Int
  HRU_index : Int
  SV_index : Int
  deriving DecidableEq, Repr

/-- The struct `expressionStruct`: `pTerms` is the irregular 2D array of terms
(one inner list per group), `nGroups` and `nTermsPerGrp` its sizes. -/
structure expressionStruct where
  pTerms : Option (List (List expressionTerm))
  nGroups : Int
  nTermsPerGrp : Option (List Int)
  compare : comparison
  origexp : String
  deriving DecidableEq, Repr

/-! ## Decision variables -/

/-- The struct `decision_var` (fields only). -/
structure decision_var where
  name : String
  dvar_type : dv_type
  p_index : Int
  dem_index : Int
  loc_index : Int
  value : ℚ
  min : ℚ
  max : ℚ
  deriving DecidableEq, Repr

/-- The constructor `decision_var::decision_var(nam, p, typ, loc_ind)`. -/
def decision_var.new (c : RavenInclude) (nam : String) (p : Int) (typ : dv_type)
    (loc_ind : Int) : decision_var :=
  { name := nam
    p_index := p
    loc_index := loc_ind
    value := 0
    min := 0
    max := c.ALMOST_INF
    dvar_type := typ
    dem_index := c.DOESNT_EXIST }

/-! ## Conditions and operating regimes -/

/-- The struct `exp_condition` (fields only). -/
structure exp_condition where
  dv_name : String
  value : ℚ
  value2 : ℚ
  date_string : String
  date_string2 : String
  compare : comparison
  p_index : Int
  pExp : Option expressionStruct
  deriving DecidableEq, Repr

/-- The default constructor `exp_condition::exp_condition()`. -/
def exp_condition.new (c : RavenInclude) : exp_condition :=
  { dv_name := ""
    value := 0
    value2 := 0
    date_string := ""
    date_string2 := ""
    compare := comparison.COMPARE_IS_EQUAL
    p_index := c.DOESNT_EXIST
    pExp := none }

/-- The struct `op_regime` (fields only). -/
structure op_regime where
  reg_name : String
  pExpression : Option expressionStruct
  nConditions : Int
  pConditions : Option (List exp_condition)
  deriving DecidableEq, Repr

/-- The constructor `op_regime::op_regime(name)`. -/
def op_regime.new (name : String) : op_regime :=
  { reg_name := name
    pExpression := none
    nConditions := 0
    pConditions := none }

/-- The conditions of a regime: entries `0 .. nConditions-1` of `pConditions`. -/
def op_regime.conditions (r : op_regime) : List exp_condition :=
  arrayPrefix r.pConditions r.nConditions

/-! ## Management constraints and goals -/

/-- The struct `manConstraint` (fields only). -/
structure manConstraint where
  name : String
  is_goal : Bool
  priority : Int
  penalty_under : ℚ
  penalty_over : ℚ
  slack_ind1 : Int
  slack_ind2 : Int
  penalty_value : ℚ
  pOperRegimes : Option (List op_regime)
  nOperRegimes : Int
  active_regime : Int
  conditions_satisfied : Bool
  ever_satisfied : Bool
  deriving DecidableEq, Repr

/-- The header documents `pOperRegimes` as an array of size `nOperRegimes`. -/
def manConstraint.SizeOk (m : manConstraint) : Prop :=
  ∃ rs, m.pOperRegimes = some rs ∧ m.nOperRegimes = (rs.length : Int)

/-- The expression of the regime at index `k`, `pOperRegimes[k]->pExpression`:
the outer `none` is an out-of-range access, the inner one a `NULL` expression. -/
def manConstraint.regimeExpression (m : manConstraint) (k : Int) :
    Option (Option expressionStruct) :=
  (arrayAt m.pOperRegimes k).map (fun r => r.pExpression)

/-- The accessor `manConstraint::GetCurrentExpression()`, which returns
`pOperRegimes[nOperRegimes-1]->pExpression`. -/
def manConstraint.GetCurrentExpression (m : manConstraint) :
    Option (Option expressionStruct) :=
  m.regimeExpression (m.nOperRegimes - 1)

/-! ## Regime selection -/

/-- Modelled from the spec: the body of `CDemandOptimizer::CheckGoalConditions`
(declared in the header, defined in a file that is not at hand). The spec says
that all conditions of regime `k` are evaluated and combined by logical AND;
`holds` gives the truth value of one condition at the current timestep. An
index outside the regime array selects no regime. -/
def CheckGoalConditions (holds : exp_condition → Bool) (m : manConstraint) (k : Int) : Bool :=
  match arrayAt m.pOperRegimes k with
  | some r => r.conditions.all holds
  | none => false

/-- Modelled from the spec: the scan over the regimes of one rule, which is
part of `SolveDemandProblem` (defined in a file that is not at hand). Regimes
are tried in declaration order starting at index `k`, at most `fuel` of them,
and the scan stops at the first regime that passes `check`. -/
def scanRegimes (check : Int → Bool) : Nat → Int → Option Int
  | 0, _ => none
  | fuel + 1, k => if check k then some k else scanRegimes check fuel (k + 1)

/-- Modelled from the spec: the per-timestep regime selection of one rule,
which is part of `SolveDemandProblem` (defined in a file that is not at hand).
The first regime with all conditions true becomes the active regime and marks
the rule as satisfied (now and ever); if none matches, the rule has no active
regime and `conditions_satisfied = false`. -/
def SelectActiveRegime (c : RavenInclude) (holds : exp_condition → Bool) (m : manConstraint) :
    manConstraint :=
  match scanRegimes (CheckGoalConditions holds m) m.nOperRegimes.toNat 0 with
  | some k => { m with active_regime := k, conditions_satisfied := true, ever_satisfied := true }
  | none => { m with active_regime := c.DOESNT_EXIST, conditions_satisfied := false }

/-- Modelled from the spec: the expressions one rule hands to the problem
builder this timestep (the builder is defined in a file that is not at hand).
A rule with an active regime contributes that regime's expression; a rule
whose conditions are not satisfied contributes nothing. -/
def ContributedRows (m : manConstraint) : List expressionStruct :=
  if m.conditions_satisfied then
    match m.regimeExpression m.active_regime with
    | some (some e) => [e]
    | _ => []
  else []

/-! ## Goal penalties -/

/-- Modelled from the spec: the penalty update that follows a solve, which is
part of `SolveDemandProblem` (defined in a file that is not at hand). The spec
says that the goal's `penalty_value` is recomputed as
`penalty_under*slack_under + penalty_over*slack_over` from the solved slacks;
the header says that it is zero for a constraint. The slacks are read from
`_aSlackValues` at `slack_ind1` and `slack_ind2`; the result is `none` when
one of these reads is out of range. -/
def UpdatePenaltyValue (_aSlackValues : Option (List ℚ)) (m : manConstraint) :
    Option manConstraint :=
  if m.is_goal then
    match arrayAt _aSlackValues m.slack_ind1, arrayAt _aSlackValues m.slack_ind2 with
    | some slack_under, some slack_over =>
      some { m with penalty_value := m.penalty_under * slack_under + m.penalty_over * slack_over }
    | _, _ => none
  else
    some { m with penalty_value := 0 }

/-- Modelled from the spec: the solved slacks of a goal with the given target
when the solved delivery is `delivery` (the solver itself is external). The
spec describes a slack as the column absorbing the gap between the target and
the solved value: the under-slack is the shortfall and the over-slack the
excess. -/
def solvedSlacks (target delivery : ℚ) : List ℚ :=
  [max (target - delivery) 0, max (delivery - target) 0]

/-! ## Variable registries -/

/-- The struct `control_var`. -/
structure control_var where
  name : String
  pExpression : Option expressionStruct
  current_val : ℚ
  deriving DecidableEq, Repr

/-- Modelled from the spec: the class `CTimeSeries`, declared in a header that
is not at hand. A user time series is registered and looked up by its name;
`samples` stands for its data. -/
structure CTimeSeries where
  name : String
  samples : List ℚ
  deriving DecidableEq, Repr

/-- Modelled from the spec: the class `CLookupTable` of `LookupTable.h`, which
is not at hand. A user lookup table is registered and looked up by its name;
`points` stands for its data. -/
structure CLookupTable where
  name : String
  points : List (ℚ × ℚ)
  deriving DecidableEq, Repr

/-- The registries of the class `CDemandOptimizer`: each counted pointer array
of the class (`_nDecisionVars`/`_pDecisionVars`, `_nControlVars`/`_pControlVars`,
`_nUserConstants`/`_aUserConstNames`/`_aUserConstants`,
`_nUserTimeSeries`/`_pUserTimeSeries`, `_nUserLookupTables`/`_pUserLookupTables`)
is a list whose length is the count. -/
structure CDemandOptimizer where
  _pDecisionVars : List decision_var
  _pControlVars : List control_var
  _aUserConstNames : List String
  _aUserConstants : List ℚ
  _pUserTimeSeries : List CTimeSeries
  _pUserLookupTables : List CLookupTable
  deriving DecidableEq, Repr

/-- Modelled from the spec: the error kinds of the subsystem (section 7). -/
inductive OptError where
  | SyntaxError
  | DuplicateName
  | UnresolvedReference
  | InvalidBounds
  | DivisionByZero
  | SolverInfeasible
  | SolverFailure
  deriving DecidableEq, Repr

/-- Modelled from the spec: the body of `CDemandOptimizer::VariableNameExists`
(declared in the header, defined in a file that is not at hand). Names are a
single global namespace, so a name exists when any registry holds it. -/
def CDemandOptimizer.VariableNameExists (o : CDemandOptimizer) (name : String) : Bool :=
  o._pDecisionVars.any (fun d => d.name == name)
  || o._pControlVars.any (fun v => v.name == name)
  || o._aUserConstNames.any (fun n => n == name)
  || o._pUserTimeSeries.any (fun t => t.name == name)
  || o._pUserLookupTables.any (fun t => t.name == name)

/-- Modelled from the spec: the body of `CDemandOptimizer::AddDecisionVar`
(defined in a file that is not at hand). Fails with `DuplicateName` if the
name already exists in any registry, otherwise appends the variable. The
result is the outcome of the call and the registries after it. -/
def CDemandOptimizer.AddDecisionVar (o : CDemandOptimizer) (pDV : decision_var) :
    Except OptError Unit × CDemandOptimizer :=
  if o.VariableNameExists pDV.name then (Except.error OptError.DuplicateName, o)
  else (Except.ok (), { o with _pDecisionVars := o._pDecisionVars ++ [pDV] })

/-- Modelled from the spec: the body of `CDemandOptimizer::AddControlVariable`
(defined in a file that is not at hand). Fails with `DuplicateName` if the
name already exists in any registry, otherwise appends a control variable
whose defining expression is `pExp`. -/
def CDemandOptimizer.AddControlVariable (o : CDemandOptimizer) (name : String)
    (pExp : Option expressionStruct) : Except OptError Unit × CDemandOptimizer :=
  if o.VariableNameExists name then (Except.error OptError.DuplicateName, o)
  else (Except.ok (), { o with _pControlVars :=
    o._pControlVars ++ [{ name := name, pExpression := pExp, current_val := 0 }] })

/-- Modelled from the spec: the body of `CDemandOptimizer::AddUserConstant`
(defined in a file that is not at hand). Fails with `DuplicateName` if the
name already exists in any registry, otherwise appends the named constant. -/
def CDemandOptimizer.AddUserConstant (o : CDemandOptimizer) (name : String) (val : ℚ) :
    Except OptError Unit × CDemandOptimizer :=
  if o.VariableNameExists name then (Except.error OptError.DuplicateName, o)
  else (Except.ok (), { o with _aUserConstNames := o._aUserConstNames ++ [name],
                               _aUserConstants := o._aUserConstants ++ [val] })

/-- Modelled from the spec: the body of `CDemandOptimizer::AddUserTimeSeries`
(defined in a file that is not at hand). Fails with `DuplicateName` if the
name of the series already exists in any registry, otherwise appends it. -/
def CDemandOptimizer.AddUserTimeSeries (o : CDemandOptimizer) (pTS : CTimeSeries) :
    Except OptError Unit × CDemandOptimizer :=
  if o.VariableNameExists pTS.name then (Except.error OptError.DuplicateName, o)
  else (Except.ok (), { o with _pUserTimeSeries := o._pUserTimeSeries ++ [pTS] })

/-- Modelled from the spec: the body of `CDemandOptimizer::AddUserLookupTable`
(defined in a file that is not at hand). Fails with `DuplicateName` if the
name of the table already exists in any registry, otherwise appends it. -/
def CDemandOptimizer.AddUserLookupTable (o : CDemandOptimizer) (pLUT : CLookupTable) :
    Except OptError Unit × CDemandOptimizer :=
  if o.VariableNameExists pLUT.name then (Except.error OptError.DuplicateName, o)
  else (Except.ok (), { o with _pUserLookupTables := o._pUserLookupTables ++ [pLUT] })

/-- The name `name` is held by some registry of `o`: by a decision variable, a
control variable, a user constant, a user time series or a user lookup table. -/
def CDemandOptimizer.Holds (o : CDemandOptimizer) (name : String) : Prop :=
  (∃ d ∈ o._pDecisionVars, d.name = name)
  ∨ (∃ v ∈ o._pControlVars, v.name = name)
  ∨ name ∈ o._aUserConstNames
  ∨ (∃ t ∈ o._pUserTimeSeries, t.name = name)
  ∨ (∃ t ∈ o._pUserLookupTables, t.name = name)

/-! ## Concrete instances -/

/-- The constants with the index sentinel `-1` and the bound sentinel `10^99`. -/
def sampleConstants : RavenInclude :=
  { ALMOST_INF := 10 ^ 99, DOESNT_EXIST := -1 }

/-- An expression without terms, identified by its original text. -/
def sampleExpression (text : String) : expressionStruct :=
  { pTerms := none, nGroups := 0, nTermsPerGrp := none,
    compare := comparison.COMPARE_LESSTHAN, origexp := text }

/-- A regime without conditions whose expression is `sampleExpression text`. -/
def sampleRegime (name text : String) : op_regime :=
  { op_regime.new name with pExpression := some (sampleExpression text) }

/-- A hard constraint with two unconditional regimes, `winter` followed by
`summer`, of which the first one is active. -/
def twoRegimeConstraint : manConstraint :=
  { name := "MinFlow", is_goal := false, priority := 1,
    penalty_under := 0, penalty_over := 0,
    slack_ind1 := -1, slack_ind2 := -1, penalty_value := 0,
    pOperRegimes := some [sampleRegime "winter" "!Q10 < 50", sampleRegime "summer" "!Q10 < 30"],
    nOperRegimes := 2, active_regime := 0,
    conditions_satisfied := true, ever_satisfied := true }

/-- A hard constraint with a single unconditional regime, which is active. -/
def oneRegimeConstraint : manConstraint :=
  { twoRegimeConstraint with
    pOperRegimes := some [sampleRegime "always" "!Q10 < 50"], nOperRegimes := 1 }

/-- A hard constraint to which no operating regime has been added: its regime
array is empty and no regime is active. -/
def noRegimeConstraint : manConstraint :=
  { twoRegimeConstraint with
    pOperRegimes := some [], nOperRegimes := 0, active_regime := -1,
    conditions_satisfied := false, ever_satisfied := false }

/-- A goal with penalties 5 (under) and 2 (over) whose slack variables are the
entries 0 and 1 of the slack array. -/
def sampleGoal : manConstraint :=
  { name := "Delivery", is_goal := true, priority := 1,
    penalty_under := 5, penalty_over := 2,
    slack_ind1 := 0, slack_ind2 := 1, penalty_value := 0,
    pOperRegimes := some [sampleRegime "always" "!D10 = 100"],
    nOperRegimes := 1, active_regime := 0,
    conditions_satisfied := true, ever_satisfied := true }

/-- Registries that hold one name each: decision variable `Q10`, control
variable `cv`, user constant `K`, time series `inflow`, lookup table `stage`. -/
def sampleOptimizer : CDemandOptimizer :=
  { _pDecisionVars := [decision_var.new sampleConstants "Q10" 0 dv_type.DV_QOUT 0],
    _pControlVars := [{ name := "cv", pExpression := none, current_val := 0 }],
    _aUserConstNames := ["K"],
    _aUserConstants := [3],
    _pUserTimeSeries := [{ name := "inflow", samples := [] }],
    _pUserLookupTables := [{ name := "stage", points := [] }] }

/-! ## Properties of the constructors -/

/-- C1: a decision variable built by `decision_var(name, p, typ, loc_ind)` has
lower bound exactly 0 and upper bound the unbounded sentinel `ALMOST_INF`. -/
theorem decision_var_default_bounds (c : RavenInclude) (nam : String) (p : Int)
    (typ : dv_type) (loc_ind : Int) :
    (decision_var.new c nam p typ loc_ind).min = 0
      ∧ (decision_var.new c nam p typ loc_ind).max = c.ALMOST_INF :=
  ⟨rfl, rfl⟩

/-- C2: a decision variable built by `decision_var(name, p, typ, loc_ind)` has
solved value exactly 0. -/
theorem decision_var_initial_value (c : RavenInclude) (nam : String) (p : Int)
    (typ : dv_type) (loc_ind : Int) :
    (decision_var.new c nam p typ loc_ind).value = 0 :=
  rfl

/-- C6: `decision_var(name, p, typ, loc_ind)` stores its four arguments as
given, and its demand index is `DOESNT_EXIST` whenever `typ` is not
`DV_DELIVERY`. -/
theorem decision_var_stores_arguments (c : RavenInclude) (nam : String) (p : Int)
    (typ : dv_type) (loc_ind : Int) :
    (decision_var.new c nam p typ loc_ind).name = nam
      ∧ (decision_var.new c nam p typ loc_ind).p_index = p
      ∧ (decision_var.new c nam p typ loc_ind).dvar_type = typ
      ∧ (decision_var.new c nam p typ loc_ind).loc_index = loc_ind
      ∧ (typ ≠ dv_type.DV_DELIVERY →
          (decision_var.new c nam p typ loc_ind).dem_index = c.DOESNT_EXIST) :=
  ⟨rfl, rfl, rfl, rfl, fun _ => rfl⟩

/-- Instance of C6 for the reach outflow variable `Q10`. -/
theorem decision_var_stores_arguments_witness :
    dv_type.DV_QOUT ≠ dv_type.DV_DELIVERY
      ∧ (decision_var.new sampleConstants "Q10" 4 dv_type.DV_QOUT 2).dem_index = -1 :=
  ⟨by decide,
    (decision_var_stores_arguments sampleConstants "Q10" 4 dv_type.DV_QOUT 2).2.2.2.2
      (by decide)⟩

/-- C9: the regime built by `op_regime(name)` carries the given name, no
expression and no conditions, so that all of its conditions hold vacuously,
whatever the truth value of individual conditions is. -/
theorem op_regime_new_has_no_conditions (name : String) (holds : exp_condition → Bool) :
    (op_regime.new name).reg_name = name
      ∧ (op_regime.new name).pExpression = none
      ∧ (op_regime.new name).nConditions = 0
      ∧ (op_regime.new name).pConditions = none
      ∧ (op_regime.new name).conditions = []
      ∧ (op_regime.new name).conditions.all holds = true :=
  ⟨rfl, rfl, rfl, rfl, rfl, rfl⟩

/-- C10: a default-constructed `exp_condition` is the comparison "is equal to
0" with nothing bound: empty names and dates, both values 0, index
`DOESNT_EXIST`, and no nested expression. -/
theorem exp_condition_default (c : RavenInclude) :
    (exp_condition.new c).compare = comparison.COMPARE_IS_EQUAL
      ∧ (exp_condition.new c).value = 0
      ∧ (exp_condition.new c).value2 = 0
      ∧ (exp_condition.new c).dv_name = ""
      ∧ (exp_condition.new c).date_string = ""
      ∧ (exp_condition.new c).date_string2 = ""
      ∧ (exp_condition.new c).p_index = c.DOESNT_EXIST
      ∧ (exp_condition.new c).pExp = none :=
  ⟨rfl, rfl, rfl, rfl, rfl, rfl, rfl, rfl⟩

/-! ## The current expression of a constraint -/

/-- Reading the last index of a non-empty array yields its last entry. -/
theorem arrayAt_last {α : Type} (rs : List α) (n : Int) (hn : n = (rs.length : Int))
    (h1 : 1 ≤ n) : ∃ r, rs.getLast? = some r ∧ arrayAt (some rs) (n - 1) = some r := by
  subst hn
  have hpos : 0 < rs.length := by omega
  have hne : rs ≠ [] := List.ne_nil_of_length_pos hpos
  refine ⟨rs.getLast hne, List.getLast?_eq_getLast rs hne, ?_⟩
  have hidx : ((rs.length : Int) - 1).toNat = rs.length - 1 := by omega
  have hnn : ¬ ((rs.length : Int) - 1 < 0) := by omega
  simp only [arrayAt, hnn, if_false, hidx]
  rw [List.getLast_eq_getElem]
  simp [List.get?_eq_getElem?, List.getElem?_eq_getElem, hpos]

/-- C7: for a management constraint with at least one operating regime (its
regime array `rs` having the documented size `nOperRegimes`),
`GetCurrentExpression` returns the expression of the most recently added
regime: the access `pOperRegimes[nOperRegimes-1]` is in range, it reads the
last entry of the array, and the result is that entry's `pExpression`. -/
theorem GetCurrentExpression_most_recent (m : manConstraint) (rs : List op_regime)
    (hp : m.pOperRegimes = some rs) (hn : m.nOperRegimes = (rs.length : Int))
    (h1 : 1 ≤ m.nOperRegimes) :
    ∃ r, rs.getLast? = some r
      ∧ arrayAt m.pOperRegimes (m.nOperRegimes - 1) = some r
      ∧ m.GetCurrentExpression = some r.pExpression := by
  obtain ⟨r, hlast, hat⟩ := arrayAt_last rs m.nOperRegimes hn h1
  refine ⟨r, hlast, ?_, ?_⟩
  · rw [hp]; exact hat
  · simp only [manConstraint.GetCurrentExpression, manConstraint.regimeExpression, hp, hat,
      Option.map_some']

/-- Instance of C7: with the regimes `winter` and `summer` added in this
order, the current expression is the one of `summer`. -/
theorem GetCurrentExpression_most_recent_witness :
    twoRegimeConstraint.GetCurrentExpression = some (some (sampleExpression "!Q10 < 30")) := by
  obtain ⟨r, hlast, -, hcur⟩ := GetCurrentExpression_most_recent twoRegimeConstraint
    [sampleRegime "winter" "!Q10 < 50", sampleRegime "summer" "!Q10 < 30"] rfl rfl (by decide)
  have hr : r = sampleRegime "summer" "!Q10 < 30" := by
    have h : [sampleRegime "winter" "!Q10 < 50", sampleRegime "summer" "!Q10 < 30"].getLast?
        = some (sampleRegime "summer" "!Q10 < 30") := rfl
    rw [h] at hlast
    exact (Option.some.inj hlast).symm
  rw [hcur, hr]
  rfl

/-- C8 fails as stated: `twoRegimeConstraint` has the documented array size and
a valid active regime (index 0, which is not `DOESNT_EXIST`), yet
`GetCurrentExpression` returns the expression of regime 1 and not the
expression `pOperRegimes[active_regime]->pExpression` of the active regime. -/
theorem GetCurrentExpression_differs_from_active :
    twoRegimeConstraint.SizeOk
      ∧ 0 ≤ twoRegimeConstraint.active_regime
      ∧ twoRegimeConstraint.active_regime < twoRegimeConstraint.nOperRegimes
      ∧ twoRegimeConstraint.active_regime ≠ sampleConstants.DOESNT_EXIST
      ∧ twoRegimeConstraint.regimeExpression twoRegimeConstraint.active_regime
          = some (some (sampleExpression "!Q10 < 50"))
      ∧ twoRegimeConstraint.GetCurrentExpression = some (some (sampleExpression "!Q10 < 30"))
      ∧ twoRegimeConstraint.GetCurrentExpression
          ≠ twoRegimeConstraint.regimeExpression twoRegimeConstraint.active_regime :=
  ⟨⟨_, rfl, rfl⟩, by decide, by decide, by decide, by decide, by decide, by decide⟩

/-- C8 as amended: for a management constraint whose regime array has the
documented size and whose active regime is a valid index, `GetCurrentExpression`
returns the expression of the active regime whenever the active regime is the
most recently added one (`active_regime = nOperRegimes-1`); in every case its
result is the same for all values of `active_regime`. -/
theorem GetCurrentExpression_active_when_last (m : manConstraint) (hs : m.SizeOk)
    (h0 : 0 ≤ m.active_regime) (hlast : m.active_regime = m.nOperRegimes - 1) :
    (∃ r, arrayAt m.pOperRegimes m.active_regime = some r
        ∧ m.GetCurrentExpression = some r.pExpression
        ∧ m.GetCurrentExpression = m.regimeExpression m.active_regime)
      ∧ ∀ k : Int, ({ m with active_regime := k } : manConstraint).GetCurrentExpression
          = m.GetCurrentExpression := by
  obtain ⟨rs, hp, hn⟩ := hs
  have h1 : 1 ≤ m.nOperRegimes := by omega
  obtain ⟨r, -, hat⟩ := arrayAt_last rs m.nOperRegimes hn h1
  refine ⟨⟨r, ?_, ?_, ?_⟩, fun k => rfl⟩
  · rw [hlast, hp]; exact hat
  · simp only [manConstraint.GetCurrentExpression, manConstraint.regimeExpression, hp, hat,
      Option.map_some']
  · rw [hlast]; rfl

/-- Instance of the amended C8: a constraint with a single regime, which is
active. -/
theorem GetCurrentExpression_active_when_last_witness :
    oneRegimeConstraint.GetCurrentExpression
      = oneRegimeConstraint.regimeExpression oneRegimeConstraint.active_regime :=
  let ⟨_, _, _, h⟩ := (GetCurrentExpression_active_when_last oneRegimeConstraint
    ⟨_, rfl, rfl⟩ (by decide) (by decide)).1
  h

/-! ## First-match regime selection -/

/-- The scan over `fuel` regimes starting at index `k` either stops at the
lowest index in `[k, k+fuel)` that passes `check`, or finds that no index in
this range passes it. -/
theorem scanRegimes_spec (check : Int → Bool) (fuel : Nat) (k : Int) :
    (∃ j, scanRegimes check fuel k = some j ∧ k ≤ j ∧ j < k + fuel ∧ check j = true
        ∧ ∀ i, k ≤ i → i < j → check i = false)
      ∨ (scanRegimes check fuel k = none ∧ ∀ i, k ≤ i → i < k + fuel → check i = false) := by
  induction fuel generalizing k with
  | zero =>
    right
    refine ⟨rfl, fun i h1 h2 => ?_⟩
    simp only [Nat.cast_zero, add_zero] at h2
    omega
  | succ fuel ih =>
    by_cases hk : check k = true
    · left
      refine ⟨k, ?_, le_refl k, ?_, hk, fun i h1 h2 => ?_⟩
      · simp [scanRegimes, hk]
      · push_cast; omega
      · omega
    · have hk0 : check k = false := by simpa using hk
      have hstep : scanRegimes check (fuel + 1) k = scanRegimes check fuel (k + 1) := by
        simp [scanRegimes, hk0]
      rcases ih (k + 1) with ⟨j, hj, hle, hlt, hc, hmin⟩ | ⟨hnone, hall⟩
      · left
        refine ⟨j, by rw [hstep, hj], by omega, by push_cast; omega, hc, fun i h1 h2 => ?_⟩
        by_cases hik : i = k
        · rw [hik]; exact hk0
        · exact hmin i (by omega) h2
      · right
        refine ⟨by rw [hstep, hnone], fun i h1 h2 => ?_⟩
        by_cases hik : i = k
        · rw [hik]; exact hk0
        · exact hall i (by omega) (by push_cast at h2; omega)

/-- C3: regime selection is first-match. After `SelectActiveRegime`, either the
active regime is the lowest index in `[0, nOperRegimes)` whose conditions all
evaluate true (`CheckGoalConditions`) and `conditions_satisfied` is set, or no
regime in that range has all conditions true, `active_regime` is
`DOESNT_EXIST`, `conditions_satisfied` is false and the constraint contributes
no row. -/
theorem SelectActiveRegime_first_match (c : RavenInclude) (holds : exp_condition → Bool)
    (m : manConstraint) :
    (∃ k, 0 ≤ k ∧ k < m.nOperRegimes
        ∧ CheckGoalConditions holds m k = true
        ∧ (∀ j, 0 ≤ j → j < k → CheckGoalConditions holds m j = false)
        ∧ (SelectActiveRegime c holds m).active_regime = k
        ∧ (SelectActiveRegime c holds m).conditions_satisfied = true)
      ∨ ((∀ k, 0 ≤ k → k < m.nOperRegimes → CheckGoalConditions holds m k = false)
        ∧ (SelectActiveRegime c holds m).active_regime = c.DOESNT_EXIST
        ∧ (SelectActiveRegime c holds m).conditions_satisfied = false
        ∧ ContributedRows (SelectActiveRegime c holds m) = []) := by
  rcases scanRegimes_spec (CheckGoalConditions holds m) m.nOperRegimes.toNat 0 with
    ⟨j, hj, hle, hlt, hc, hmin⟩ | ⟨hnone, hall⟩
  · left
    refine ⟨j, hle, by omega, hc, hmin, ?_, ?_⟩
    · simp [SelectActiveRegime, hj]
    · simp [SelectActiveRegime, hj]
  · right
    refine ⟨fun k h0 hlt => hall k h0 (by omega), ?_, ?_, ?_⟩
    · simp [SelectActiveRegime, hnone]
    · simp [SelectActiveRegime, hnone]
    · simp [SelectActiveRegime, hnone, ContributedRows]

/-! ## Goal penalties -/

/-- The slacks of `solvedSlacks` are non-negative and close the gap between
the delivery and the target, and for non-negative penalty weights no other
such pair of slacks has a smaller penalty. -/
theorem solvedSlacks_optimal (target delivery : ℚ) :
    ∃ su so, solvedSlacks target delivery = [su, so]
      ∧ 0 ≤ su ∧ 0 ≤ so ∧ delivery + su - so = target
      ∧ ∀ pu po s1 s2 : ℚ, 0 ≤ pu → 0 ≤ po → 0 ≤ s1 → 0 ≤ s2 →
          delivery + s1 - s2 = target → pu * su + po * so ≤ pu * s1 + po * s2 := by
  refine ⟨max (target - delivery) 0, max (delivery - target) 0, rfl, le_max_right _ _,
    le_max_right _ _, ?_, ?_⟩
  · rcases le_total target delivery with h | h
    · rw [max_eq_right (by linarith), max_eq_left (by linarith)]; ring
    · rw [max_eq_left (by linarith), max_eq_right (by linarith)]; ring
  · intro pu po s1 s2 hpu hpo hs1 hs2 hrow
    rcases le_total target delivery with h | h
    · rw [max_eq_right (by linarith), max_eq_left (by linarith)]
      have h2 : delivery - target ≤ s2 := by linarith
      nlinarith [mul_nonneg hpu hs1, mul_le_mul_of_nonneg_left h2 hpo]
    · rw [max_eq_left (by linarith), max_eq_right (by linarith)]
      have h1 : target - delivery ≤ s1 := by linarith
      nlinarith [mul_nonneg hpo hs2, mul_le_mul_of_nonneg_left h1 hpu]

/-- C4: after a solve the `penalty_value` of a goal is
`penalty_under * slack_under + penalty_over * slack_over`, the slacks being the
solved values at `slack_ind1` and `slack_ind2`. For a goal with penalties 5
and 2 and target 100 whose slacks are the entries 0 and 1 of the slack array,
a solved delivery of 80 gives 100, one of 120 gives 40 and one of 100 gives 0. -/
theorem goal_penalty_value (m : manConstraint) (hg : m.is_goal = true) :
    (∀ (slacks : Option (List ℚ)) (slack_under slack_over : ℚ),
        arrayAt slacks m.slack_ind1 = some slack_under →
        arrayAt slacks m.slack_ind2 = some slack_over →
        (UpdatePenaltyValue slacks m).map (fun g => g.penalty_value)
          = some (m.penalty_under * slack_under + m.penalty_over * slack_over))
      ∧ (m.penalty_under = 5 → m.penalty_over = 2 → m.slack_ind1 = 0 → m.slack_ind2 = 1 →
          (UpdatePenaltyValue (some (solvedSlacks 100 80)) m).map (fun g => g.penalty_value)
              = some 100
            ∧ (UpdatePenaltyValue (some (solvedSlacks 100 120)) m).map (fun g => g.penalty_value)
              = some 40
            ∧ (UpdatePenaltyValue (some (solvedSlacks 100 100)) m).map (fun g => g.penalty_value)
              = some 0) := by
  have general : ∀ (slacks : Option (List ℚ)) (slack_under slack_over : ℚ),
      arrayAt slacks m.slack_ind1 = some slack_under →
      arrayAt slacks m.slack_ind2 = some slack_over →
      (UpdatePenaltyValue slacks m).map (fun g => g.penalty_value)
        = some (m.penalty_under * slack_under + m.penalty_over * slack_over) := by
    intro slacks su so h1 h2
    simp [UpdatePenaltyValue, hg, h1, h2]
  refine ⟨general, fun hpu hpo hi1 hi2 => ⟨?_, ?_, ?_⟩⟩
  · rw [general (some (solvedSlacks 100 80)) 20 0 (by rw [hi1]; norm_num [solvedSlacks, arrayAt])
      (by rw [hi2]; norm_num [solvedSlacks, arrayAt]), hpu, hpo]
    norm_num
  · rw [general (some (solvedSlacks 100 120)) 0 20 (by rw [hi1]; norm_num [solvedSlacks, arrayAt])
      (by rw [hi2]; norm_num [solvedSlacks, arrayAt]), hpu, hpo]
    norm_num
  · rw [general (some (solvedSlacks 100 100)) 0 0 (by rw [hi1]; norm_num [solvedSlacks, arrayAt])
      (by rw [hi2]; norm_num [solvedSlacks, arrayAt]), hpu, hpo]
    norm_num

/-- Instance of C4 for `sampleGoal`: a solved delivery of 80 against the target
100 leaves the goal with penalty value 100. -/
theorem goal_penalty_value_witness :
    sampleGoal.is_goal = true
      ∧ (UpdatePenaltyValue (some (solvedSlacks 100 80)) sampleGoal).map
          (fun g => g.penalty_value) = some 100 :=
  ⟨rfl, ((goal_penalty_value sampleGoal rfl).2 rfl rfl rfl rfl).1⟩

/-! ## A single namespace of names -/

/-- A name held by any registry is reported by `VariableNameExists`. -/
theorem VariableNameExists_of_Holds (o : CDemandOptimizer) (name : String)
    (h : o.Holds name) : o.VariableNameExists name = true := by
  simp only [CDemandOptimizer.VariableNameExists, Bool.or_eq_true, List.any_eq_true,
    beq_iff_eq]
  rcases h with ⟨d, hd, e⟩ | ⟨v, hv, e⟩ | hc | ⟨t, ht, e⟩ | ⟨t, ht, e⟩
  · exact Or.inl (Or.inl (Or.inl (Or.inl ⟨d, hd, e⟩)))
  · exact Or.inl (Or.inl (Or.inl (Or.inr ⟨v, hv, e⟩)))
  · exact Or.inl (Or.inl (Or.inr ⟨name, hc, rfl⟩))
  · exact Or.inl (Or.inr ⟨t, ht, e⟩)
  · exact Or.inr ⟨t, ht, e⟩

/-- C5: names form a single namespace across all registries. If `name` is
held by a decision variable, a control variable, a user constant, a user time
series or a user lookup table, then each of `AddDecisionVar`,
`AddControlVariable`, `AddUserConstant`, `AddUserTimeSeries` and
`AddUserLookupTable` called with that name fails with `DuplicateName` and
leaves every registry unchanged. -/
theorem Add_fails_on_duplicate_name (o : CDemandOptimizer) (name : String)
    (h : o.Holds name) :
    (∀ pDV : decision_var, pDV.name = name →
        o.AddDecisionVar pDV = (Except.error OptError.DuplicateName, o))
      ∧ (∀ pExp : Option expressionStruct,
        o.AddControlVariable name pExp = (Except.error OptError.DuplicateName, o))
      ∧ (∀ val : ℚ,
        o.AddUserConstant name val = (Except.error OptError.DuplicateName, o))
      ∧ (∀ pTS : CTimeSeries, pTS.name = name →
        o.AddUserTimeSeries pTS = (Except.error OptError.DuplicateName, o))
      ∧ (∀ pLUT : CLookupTable, pLUT.name = name →
        o.AddUserLookupTable pLUT = (Except.error OptError.DuplicateName, o)) := by
  have hex := VariableNameExists_of_Holds o name h
  refine ⟨fun pDV e => ?_, fun pExp => ?_, fun val => ?_, fun pTS e => ?_, fun pLUT e => ?_⟩
  · simp [CDemandOptimizer.AddDecisionVar, e, hex]
  · simp [CDemandOptimizer.AddControlVariable, hex]
  · simp [CDemandOptimizer.AddUserConstant, hex]
  · simp [CDemandOptimizer.AddUserTimeSeries, e, hex]
  · simp [CDemandOptimizer.AddUserLookupTable, e, hex]

/-- Instance of C5: the name `inflow` is held by a user time series, so it
cannot be registered again as a user constant, and the registries stay as
they were. -/
theorem Add_fails_on_duplicate_name_witness :
    sampleOptimizer.Holds "inflow"
      ∧ sampleOptimizer.AddUserConstant "inflow" 7
          = (Except.error OptError.DuplicateName, sampleOptimizer) :=
  ⟨Or.inr (Or.inr (Or.inr (Or.inl ⟨_, List.mem_singleton.mpr rfl, rfl⟩))),
    (Add_fails_on_duplicate_name sampleOptimizer "inflow"
      (Or.inr (Or.inr (Or.inr (Or.inl ⟨_, List.mem_singleton.mpr rfl, rfl⟩))))).2.2.1 7⟩

/-! ## Range of the access made by `GetCurrentExpression` -/

/-- C11: `GetCurrentExpression` reads index `nOperRegimes-1` of `pOperRegimes`.
For a constraint whose regime array has the documented size, this index lies
in `[0, nOperRegimes)` if and only if `nOperRegimes >= 1`, and the access is in
range (it yields a regime, and the accessor a result) exactly in that case;
for a constraint with zero operating regimes the index is `-1` and the access
is out of range. -/
theorem GetCurrentExpression_in_range_iff (m : manConstraint) (hs : m.SizeOk) :
    ((0 ≤ m.nOperRegimes - 1 ∧ m.nOperRegimes - 1 < m.nOperRegimes) ↔ 1 ≤ m.nOperRegimes)
      ∧ ((arrayAt m.pOperRegimes (m.nOperRegimes - 1)).isSome = true ↔ 1 ≤ m.nOperRegimes)
      ∧ (m.GetCurrentExpression.isSome = true ↔ 1 ≤ m.nOperRegimes)
      ∧ (m.nOperRegimes = 0 →
          m.nOperRegimes - 1 = -1
            ∧ arrayAt m.pOperRegimes (m.nOperRegimes - 1) = none
            ∧ m.GetCurrentExpression = none) := by
  obtain ⟨rs, hp, hn⟩ := hs
  have hin : 1 ≤ m.nOperRegimes →
      (arrayAt m.pOperRegimes (m.nOperRegimes - 1)).isSome = true := by
    intro h1
    obtain ⟨r, -, hat⟩ := arrayAt_last rs m.nOperRegimes hn h1
    rw [hp, hat]
    rfl
  have hout : ¬ 1 ≤ m.nOperRegimes →
      arrayAt m.pOperRegimes (m.nOperRegimes - 1) = none := by
    intro h1
    have hneg : m.nOperRegimes - 1 < 0 := by omega
    simp only [arrayAt, hp, hneg, if_true]
  have hacc : (arrayAt m.pOperRegimes (m.nOperRegimes - 1)).isSome = true
      ↔ 1 ≤ m.nOperRegimes := by
    constructor
    · intro h
      by_contra h1
      rw [hout h1] at h
      exact Bool.noConfusion h
    · exact hin
  refine ⟨by omega, hacc, ?_, fun h0 => ⟨by omega, hout (by omega), ?_⟩⟩
  · rw [← hacc]
    simp only [manConstraint.GetCurrentExpression, manConstraint.regimeExpression,
      Option.isSome_map']
  · simp only [manConstraint.GetCurrentExpression, manConstraint.regimeExpression,
      hout (by omega), Option.map_none']

/-- Instance of C11: the access is in range for the constraint with two
regimes and out of range, at index `-1`, for the constraint without regimes. -/
theorem GetCurrentExpression_in_range_iff_witness :
    twoRegimeConstraint.GetCurrentExpression.isSome = true
      ∧ noRegimeConstraint.nOperRegimes - 1 = -1
      ∧ noRegimeConstraint.GetCurrentExpression = none :=
  ⟨(GetCurrentExpression_in_range_iff twoRegimeConstraint ⟨_, rfl, rfl⟩).2.2.1.mpr (by decide),
    ((GetCurrentExpression_in_range_iff noRegimeConstraint ⟨_, rfl, rfl⟩).2.2.2 rfl).1,
    ((GetCurrentExpression_in_range_iff noRegimeConstraint ⟨_, rfl, rfl⟩).2.2.2 rfl).2.2⟩

/-! ## Initial value within the default bounds -/

/-- C12: every freshly constructed decision variable satisfies
`min <= value <= max`, that is `0 <= 0 <= ALMOST_INF`: for a non-negative
sentinel `ALMOST_INF` the default bounds form a non-empty interval and the
initial solved value lies inside it, for every name, `p`, `typ` and `loc_ind`. -/
theorem decision_var_value_within_bounds (c : RavenInclude) (hc : 0 ≤ c.ALMOST_INF)
    (nam : String) (p : Int) (typ : dv_type) (loc_ind : Int) :
    (decision_var.new c nam p typ loc_ind).min ≤ (decision_var.new c nam p typ loc_ind).value
      ∧ (decision_var.new c nam p typ loc_ind).value ≤ (decision_var.new c nam p typ loc_ind).max
      ∧ (decision_var.new c nam p typ loc_ind).min ≤ (decision_var.new c nam p typ loc_ind).max :=
  ⟨le_refl (0 : ℚ), hc, hc⟩

/-- Instance of C12 for the reach outflow variable `Q10` with the sentinel
`10^99`. -/
theorem decision_var_value_within_bounds_witness :
    (0 : ℚ) ≤ sampleConstants.ALMOST_INF
      ∧ (decision_var.new sampleConstants "Q10" 4 dv_type.DV_QOUT 2).value
          ≤ (decision_var.new sampleConstants "Q10" 4 dv_type.DV_QOUT 2).max :=
  ⟨by simp [sampleConstants],
    (decision_var_value_within_bounds sampleConstants (by simp [sampleConstants])
      "Q10" 4 dv_type.DV_QOUT 2).2.1⟩

end Raven
